import Mathlib

/-!
Verification development for the many-as-penny-web stock-alert system
(`src/check_alerts.py` and `src/app.py`).

The embedding models the persisted rows (`stocks`, `alerts`), the Finnhub
quote wrapper `get_stock_quote` (both the cron-script and the web-app
variants), the Brevo notifier `send_email_alert`, the cron sweep
`check_all_alerts`, the interactive page load `home`, and the guarded
endpoint `run_alert_check`.

External effects are made explicit:
- the HTTP fetch of a quote is an oracle `String → FetchOutcome`
  (a transport failure, or the JSON fields of the response);
- the Brevo send is an oracle `Nat → SendOutcome` per alert id
  (success, or the `ApiException` the wrapper catches);
- the supabase `update(...).execute()` marking an alert triggered is an
  oracle `Nat → Bool` per alert id; the source wraps this call in no
  `try/except`, so a `false` here is an unhandled exception that aborts
  the rest of the loop.

Prices (Python floats) are modelled as rationals; only their linear order
is used by the code.
-/

/-- The joined `stocks(symbol, name)` record attached to an alert row by the
sweep's select. -/
structure StockInfo where
  symbol : String
  name : String
deriving DecidableEq, Repr

/-- A row of the `stocks` table (the columns the code reads). -/
structure StockRow where
  id : Nat
  user_id : Nat
  symbol : String
  name : String
deriving DecidableEq, Repr

/-- A row of the `alerts` table (the columns the code reads and writes). -/
structure AlertRow where
  id : Nat
  stock_id : Nat
  user_id : Nat
  alert_email : String
  alert_type : String
  target_price : Rat
  is_triggered : Bool
deriving DecidableEq, Repr

/-- An alert row together with its joined stock record, as produced by
`select('*, stocks(symbol, name)')`; the join is `none` when the foreign
row is absent. -/
structure JoinedAlert where
  row : AlertRow
  stocks : Option StockInfo
deriving DecidableEq, Repr

/-- The persisted state the code touches. -/
structure DB where
  stocks : List StockRow
  alerts : List AlertRow
deriving DecidableEq, Repr

/-- Outcome of the HTTP GET against the Finnhub quote endpoint: either a
transport failure (`requests.exceptions.RequestException`) or the decoded
JSON fields `c, d, dp, o, h, l`, each possibly absent. -/
inductive FetchOutcome where
  | transportError
  | response (c d dp o h l : Option Rat)
deriving DecidableEq, Repr

/-- Return value of `get_stock_quote` in `check_alerts.py`: a dict with an
`error` entry, or one with `symbol` and `current_price` (the latter is the
raw `data.get('c')`, hence possibly `None`). -/
inductive QuoteResult where
  | err (symbol msg : String)
  | ok (symbol : String) (current_price : Option Rat)
deriving DecidableEq, Repr

/-- Model of `get_stock_quote` from `src/check_alerts.py`: a transport exception is
caught and mapped to a tagged error; a response with `c == 0 and h == 0`
is mapped to a tagged error; otherwise the current price is returned. -/
def get_stock_quote (fetched : FetchOutcome) (symbol : String) : QuoteResult :=
  match fetched with
  | .transportError => .err symbol "Failed to fetch quote"
  | .response c _ _ _ h _ =>
      if c = some 0 ∧ h = some 0 then
        .err symbol "No valid price data found for ticker."
      else
        .ok symbol c

/-- Return value of `get_stock_quote` in `src/app.py`: the same error
classification, but the success record carries the extra price fields. -/
inductive QuoteApp where
  | err (symbol msg : String)
  | ok (symbol : String)
      (current_price price_change percent_change
       opening_price high_price low_price : Option Rat)
deriving DecidableEq, Repr

/-- Model of `get_stock_quote` from `src/app.py` (lines 129-151). -/
def get_stock_quote_app (fetched : FetchOutcome) (symbol : String) : QuoteApp :=
  match fetched with
  | .transportError => .err symbol "Failed to fetch quote"
  | .response c d dp o h l =>
      if c = some 0 ∧ h = some 0 then
        .err symbol "No valid price data found for ticker."
      else
        .ok symbol c d dp o h l

/-- Python truthiness of an environment variable read by `os.getenv`:
falsy when unset (`None`) or the empty string. -/
def truthy : Option String → Bool
  | none => false
  | some s => s ≠ ""

/-- Sender-side configuration read from the environment. -/
structure BrevoConfig where
  api_key : Option String
  sender : Option String
deriving DecidableEq, Repr

/-- Outcome of `api_instance.send_transac_email`: a message id, or the
`ApiException` that the wrapper catches. -/
inductive SendOutcome where
  | success (messageId : String)
  | apiException (msg : String)
deriving DecidableEq, Repr

/-- Result of `send_email_alert`: skipped-with-log (no send attempted),
sent, or delivery-failed-with-log.  All three are normal returns; the
function never raises into its caller. -/
inductive NotifyResult where
  | skipped
  | sent (messageId : String)
  | failed (errMsg : String)
deriving DecidableEq, Repr

/-- The subject line `send_email_alert` selects from the alert type
(anything other than `high` takes the low branch). -/
def alertSubject (alert_type symbol : String) : String :=
  if alert_type = "high" then
    "✅ High Price Alert for " ++ symbol ++ "!"
  else
    "🔻 Low Price Alert for " ++ symbol ++ "!"

/-- Model of `send_email_alert` (identical behaviour in `src/check_alerts.py` lines
40-75 and `src/app.py` lines 61-125): skip with a log when the Brevo key,
the sender, or the target email is falsy; otherwise attempt the send,
catching `ApiException` so that a delivery failure returns normally. -/
def send_email_alert (cfg : BrevoConfig) (outcome : SendOutcome)
    (target_email symbol _name alert_type : String)
    (_current_price _target_price : Rat) : NotifyResult :=
  if ¬ (truthy cfg.api_key = true) ∨ ¬ (truthy cfg.sender = true) ∨ target_email = "" then
    .skipped
  else
    let _subject := alertSubject alert_type symbol
    match outcome with
    | .success messageId => .sent messageId
    | .apiException e => .failed e

/-- Observable external effects of a pass, in program order. -/
inductive Event where
  | notified (alertId : Nat) (result : NotifyResult)
  | persisted (alertId : Nat)
deriving DecidableEq, Repr

/-- What evaluating one alert inside the `check_all_alerts` loop did:
the events it emitted in order, whether `is_triggered := true` was
persisted for it, and whether an unhandled exception escaped (the
un-guarded supabase update). -/
structure EvalResult where
  events : List Event
  persisted : Bool
  raised : Bool
deriving DecidableEq, Repr

/-- The environment a pass runs against. -/
structure Env where
  cfg : BrevoConfig
  fetch : String → FetchOutcome
  sendOutcome : Nat → SendOutcome
  persistOk : Nat → Bool

/-- The body of the `for alert in alerts` loop of `check_all_alerts`
(`src/check_alerts.py` lines 91-119) for one alert: skip when the joined
stock is absent, when the quote carries an error, or when the current
price is `None`; otherwise decide `is_triggered` by the high/low
threshold comparison and, on a fire, send the email and then run the
un-guarded supabase update. -/
def evalAlert (env : Env) (ja : JoinedAlert) : EvalResult :=
  match ja.stocks with
  | none => ⟨[], false, false⟩
  | some stock_info =>
    let symbol := stock_info.symbol
    let name := stock_info.name
    match get_stock_quote (env.fetch symbol) symbol with
    | .err _ _ => ⟨[], false, false⟩
    | .ok _ none => ⟨[], false, false⟩
    | .ok _ (some current_price) =>
      let is_triggered : Bool :=
        if ja.row.alert_type = "high" ∧ current_price ≥ ja.row.target_price then true
        else if ja.row.alert_type = "low" ∧ current_price ≤ ja.row.target_price then true
        else false
      if is_triggered then
        let n := send_email_alert env.cfg (env.sendOutcome ja.row.id)
          ja.row.alert_email symbol name ja.row.alert_type
          current_price ja.row.target_price
        if env.persistOk ja.row.id then
          ⟨[.notified ja.row.id n, .persisted ja.row.id], true, false⟩
        else
          ⟨[.notified ja.row.id n], false, true⟩
      else ⟨[], false, false⟩

/-- The join performed by `select('*, stocks(symbol, name)')`. -/
def joinStocks (stocks : List StockRow) (a : AlertRow) : JoinedAlert :=
  ⟨a, (stocks.find? (fun s => s.id == a.stock_id)).map (fun s => ⟨s.symbol, s.name⟩)⟩

/-- The rows the sweep selects: `.eq('is_triggered', False)`, with the
stock join attached. -/
def activeAlerts (db : DB) : List JoinedAlert :=
  (db.alerts.filter (fun a => a.is_triggered == false)).map (joinStocks db.stocks)

/-- The loop of `check_all_alerts`: alerts are evaluated in order; an
evaluation that raises (persistence failure) propagates out of the loop,
so the remaining alerts are not evaluated. -/
def runAlerts (env : Env) : List JoinedAlert → List (JoinedAlert × EvalResult)
  | [] => []
  | ja :: rest =>
    let r := evalAlert env ja
    if r.raised then [(ja, r)] else (ja, r) :: runAlerts env rest

/-- Model of `check_all_alerts` from `src/check_alerts.py` (lines 78-121): select
the untriggered alerts with their stock join and run the loop. -/
def check_all_alerts (env : Env) (db : DB) : List (JoinedAlert × EvalResult) :=
  runAlerts env (activeAlerts db)

/-- All events a pass emitted, in order. -/
def passEvents (run : List (JoinedAlert × EvalResult)) : List Event :=
  (run.map (fun x => x.2.events)).flatten

/-- Ids of the alerts whose `is_triggered := true` update executed. -/
def persistedIds (run : List (JoinedAlert × EvalResult)) : List Nat :=
  run.filterMap (fun x => if x.2.persisted then some x.1.row.id else none)

/-- The alerts table after a sweep: the supabase update sets
`is_triggered` to `True` on every row whose `id` was marked. -/
def sweepDB (env : Env) (db : DB) : DB :=
  { db with alerts := db.alerts.map (fun a =>
      if a.id ∈ persistedIds (check_all_alerts env db) then
        { a with is_triggered := true }
      else a) }

/-- One entry of the stock list rendered by the homepage: the stock row,
the quote data merged into it, and the user's alerts for that stock. -/
structure StockView where
  stock : StockRow
  quote : QuoteApp
  alerts : List AlertRow
deriving DecidableEq, Repr

/-- Model of `home` from `src/app.py` (lines 230-249): select the user's stocks and
the user's alerts, fetch a quote for each stock and attach the stock's
alerts.  It renders the result; it sends no notification and writes
nothing. -/
def home (fetch : String → FetchOutcome) (userId : Nat) (db : DB) : List StockView :=
  let stocks := db.stocks.filter (fun s => s.user_id == userId)
  let all_alerts := db.alerts.filter (fun a => a.user_id == userId)
  stocks.map (fun stock =>
    ⟨stock, get_stock_quote_app (fetch stock.symbol) stock.symbol,
      all_alerts.filter (fun alert => alert.stock_id == stock.id)⟩)

/-- Model of `add_alert` from `src/app.py` (lines 313-341): with all form fields
present and the stock owned by the user, insert a new row with
`is_triggered: False`; `freshId` stands for the id the database assigns. -/
def addAlertDB (freshId stockId : Nat) (email : String) (price : Rat)
    (alert_type : String) (userId : Nat) (db : DB) : DB :=
  if email ≠ "" ∧ alert_type ≠ "" ∧
      db.stocks.any (fun s => s.id == stockId ∧ s.user_id == userId) then
    { db with alerts := db.alerts ++ [⟨freshId, stockId, userId, email, alert_type, price, false⟩] }
  else db

/-- Model of `delete_alert` from `src/app.py` (lines 345-358): delete the row
matching the alert id and the user id. -/
def deleteAlertDB (alertId userId : Nat) (db : DB) : DB :=
  { db with alerts := db.alerts.filter (fun a => ¬ (a.id == alertId ∧ a.user_id == userId)) }

/-- Model of `delete_stock` from `src/app.py` (lines 296-309): delete the
stock row matching the id and user.  The cascade to the stock's alert
rules lives in the database schema (not under `src/`); here the alert
rows stay and their joins resolve to `none` — a cascade could only remove
rows, never notify or flip a flag. -/
def deleteStockDB (stockId userId : Nat) (db : DB) : DB :=
  { db with stocks := db.stocks.filter (fun s => ¬ (s.id == stockId ∧ s.user_id == userId)) }

/-- The operations of the system that read or write the alerts table or
invoke the notifier. -/
inductive Op where
  | sweep (env : Env)
  | pageLoad (fetch : String → FetchOutcome) (userId : Nat)
  | addAlert (freshId stockId : Nat) (email : String) (price : Rat)
             (alert_type : String) (userId : Nat)
  | deleteAlert (alertId userId : Nat)
  | deleteStock (stockId userId : Nat)

/-- Effect of one operation on the persisted state, together with the
notification events it emits.  Only the sweep notifies or flips a flag. -/
def step (op : Op) (db : DB) : DB × List Event :=
  match op with
  | .sweep env => (sweepDB env db, passEvents (check_all_alerts env db))
  | .pageLoad _ _ => (db, [])
  | .addAlert freshId stockId email price alert_type userId =>
      (addAlertDB freshId stockId email price alert_type userId db, [])
  | .deleteAlert alertId userId => (deleteAlertDB alertId userId db, [])
  | .deleteStock stockId userId => (deleteStockDB stockId userId db, [])

/-- An insert carries an id fresh for the current table (the database
assigns it). -/
def opFresh (op : Op) (db : DB) : Prop :=
  match op with
  | .addAlert freshId _ _ _ _ _ => freshId ∉ db.alerts.map (fun a => a.id)
  | _ => True

/-- `run_alert_check` from `src/app.py` (lines 365-374): compare the
`secret` query parameter (absent ⇒ `None`) with `os.getenv('CRON_SECRET')`
(unset ⇒ `None`) for exact equality; on a match run the sweep — an
exception escaping the sweep yields the framework's 500, a normal return
yields 200 — otherwise answer 403. -/
def run_alert_check (secret cron : Option String) (env : Env) (db : DB) :
    Option (List (JoinedAlert × EvalResult) × DB) × Nat :=
  if secret = cron then
    let run := check_all_alerts env db
    if run.any (fun x => x.2.raised) then (some (run, sweepDB env db), 500)
    else (some (run, sweepDB env db), 200)
  else (none, 403)

/-! ## Concrete fixtures used to exercise the definitions -/

/-- A stock owned by user 7. -/
def stockW : StockRow := ⟨1, 7, "AAPL", "Apple Inc."⟩

/-- An untriggered high alert at target 100 on that stock. -/
def alertW : AlertRow := ⟨1, 1, 7, "user@example.com", "high", 100, false⟩

/-- An already-triggered alert. -/
def alertT : AlertRow := ⟨2, 1, 7, "user@example.com", "high", 100, true⟩

/-- A second untriggered high alert on the same stock. -/
def alertB : AlertRow := ⟨2, 1, 7, "user@example.com", "high", 100, false⟩

/-- An alert whose stock row is absent (dangling `stock_id`). -/
def alertN : AlertRow := ⟨3, 99, 7, "user@example.com", "high", 100, false⟩

/-- One stock, one live untriggered alert. -/
def dbW : DB := ⟨[stockW], [alertW]⟩

/-- One stock, one triggered alert. -/
def dbT : DB := ⟨[stockW], [alertT]⟩

/-- One stock, two live untriggered alerts. -/
def dbB : DB := ⟨[stockW], [alertW, alertB]⟩

/-- A quote oracle answering every symbol with current price 100. -/
def fetchW : String → FetchOutcome :=
  fun _ => .response (some 100) none none none (some 110) none

/-- Healthy environment: quotes at 100, sends succeed, updates succeed. -/
def envW : Env :=
  ⟨⟨some "k", some "s"⟩, fetchW, fun _ => .success "mid", fun _ => true⟩

/-- Environment whose Brevo send raises `ApiException`. -/
def envF : Env :=
  ⟨⟨some "k", some "s"⟩, fetchW, fun _ => .apiException "boom", fun _ => true⟩

/-- Environment whose quote fetch hits a transport failure. -/
def envE : Env :=
  ⟨⟨some "k", some "s"⟩, fun _ => .transportError, fun _ => .success "mid", fun _ => true⟩

/-- Environment whose supabase update raises for alert id 1. -/
def envP : Env :=
  ⟨⟨some "k", some "s"⟩, fetchW, fun _ => .success "mid", fun i => i != 1⟩

/-- Environment whose quote responses lack the `c` field. -/
def envNone : Env :=
  ⟨⟨some "k", some "s"⟩, fun _ => .response none none none none (some 1) none,
   fun _ => .success "mid", fun _ => true⟩

/-! ## Helper lemmas about the sweep loop -/

theorem mem_runAlerts {env : Env} {l : List JoinedAlert} {x : JoinedAlert}
    {r : EvalResult} (h : (x, r) ∈ runAlerts env l) :
    r = evalAlert env x ∧ x ∈ l := by
  induction l with
  | nil => simp [runAlerts] at h
  | cons ja rest ih =>
    cases hr : (evalAlert env ja).raised with
    | true =>
      simp [runAlerts, hr] at h
      obtain ⟨hx, hr'⟩ := h
      subst hx
      exact ⟨hr', List.mem_cons_self _ _⟩
    | false =>
      simp only [runAlerts, hr, Bool.false_eq_true, if_false, List.mem_cons,
        Prod.mk.injEq] at h
      rcases h with ⟨hx, hr'⟩ | h
      · subst hx
        exact ⟨hr', List.mem_cons_self _ _⟩
      · exact ⟨(ih h).1, List.mem_cons_of_mem _ (ih h).2⟩

theorem joinStocks_row (stocks : List StockRow) (a : AlertRow) :
    (joinStocks stocks a).row = a := rfl

theorem mem_activeAlerts {db : DB} {ja : JoinedAlert} (h : ja ∈ activeAlerts db) :
    ja.row ∈ db.alerts ∧ ja.row.is_triggered = false ∧
      ja = joinStocks db.stocks ja.row := by
  simp only [activeAlerts, List.mem_map] at h
  obtain ⟨a, ha, rfl⟩ := h
  rw [List.mem_filter] at ha
  refine ⟨ha.1, ?_, rfl⟩
  simpa using ha.2

theorem mem_persistedIds {run : List (JoinedAlert × EvalResult)} {i : Nat} :
    i ∈ persistedIds run ↔ ∃ x ∈ run, x.2.persisted = true ∧ x.1.row.id = i := by
  simp only [persistedIds, List.mem_filterMap]
  constructor
  · rintro ⟨x, hx, hfi⟩
    by_cases hp : x.2.persisted = true
    · simp only [hp, if_true, Option.some.injEq] at hfi
      exact ⟨x, hx, hp, hfi⟩
    · simp [hp] at hfi
  · rintro ⟨x, hx, hp, hi⟩
    exact ⟨x, hx, by simp [hp, hi]⟩

theorem mem_passEvents {run : List (JoinedAlert × EvalResult)} {e : Event} :
    e ∈ passEvents run ↔ ∃ x ∈ run, e ∈ x.2.events := by
  simp only [passEvents, List.mem_flatten, List.mem_map]
  constructor
  · rintro ⟨l, ⟨x, hx, rfl⟩, he⟩
    exact ⟨x, hx, he⟩
  · rintro ⟨x, hx, he⟩
    exact ⟨x.2.events, ⟨x, hx, rfl⟩, he⟩

theorem alertRow_id_inj {db : DB}
    (hnd : (db.alerts.map (fun a => a.id)).Nodup)
    {a b : AlertRow} (ha : a ∈ db.alerts) (hb : b ∈ db.alerts)
    (hid : a.id = b.id) : a = b :=
  List.inj_on_of_nodup_map hnd ha hb hid

/-- Shape of `evalAlert` when the stock join is present and the quote
carries a valid current price. -/
theorem evalAlert_valid {env : Env} {ja : JoinedAlert} {st : StockInfo} {p : Rat}
    (hst : ja.stocks = some st)
    (hq : get_stock_quote (env.fetch st.symbol) st.symbol = .ok st.symbol (some p)) :
    evalAlert env ja =
      if (ja.row.alert_type = "high" ∧ p ≥ ja.row.target_price) ∨
         (ja.row.alert_type = "low" ∧ p ≤ ja.row.target_price) then
        (if env.persistOk ja.row.id then
          ⟨[Event.notified ja.row.id (send_email_alert env.cfg (env.sendOutcome ja.row.id)
              ja.row.alert_email st.symbol st.name ja.row.alert_type p ja.row.target_price),
            Event.persisted ja.row.id], true, false⟩
        else
          ⟨[Event.notified ja.row.id (send_email_alert env.cfg (env.sendOutcome ja.row.id)
              ja.row.alert_email st.symbol st.name ja.row.alert_type p ja.row.target_price)],
            false, true⟩)
      else ⟨[], false, false⟩ := by
  by_cases hA : ja.row.alert_type = "high" ∧ p ≥ ja.row.target_price
  · simp [evalAlert, hst, hq, hA]
  · by_cases hB : ja.row.alert_type = "low" ∧ p ≤ ja.row.target_price
    · simp [evalAlert, hst, hq, hA, hB]
    · simp [evalAlert, hst, hq, hA, hB]

/-- Both quote wrappers report back the symbol it was asked about. -/
theorem get_stock_quote_ok_symbol {f : FetchOutcome} {sym s : String}
    {c : Option Rat} (h : get_stock_quote f sym = .ok s c) : s = sym := by
  cases f with
  | transportError => simp [get_stock_quote] at h
  | response c' d dp o h' l =>
    by_cases hz : c' = some 0 ∧ h' = some 0
    · simp [get_stock_quote, hz] at h
    · simp only [get_stock_quote, if_neg hz, QuoteResult.ok.injEq] at h
      exact h.1.symm

/-- The three possible shapes of an alert's evaluation: a no-op skip, a
fire with the update persisted, or a fire aborted by the un-guarded
update. -/
theorem evalAlert_cases (env : Env) (ja : JoinedAlert) :
    evalAlert env ja = ⟨[], false, false⟩ ∨
    (∃ n, evalAlert env ja =
      ⟨[Event.notified ja.row.id n, Event.persisted ja.row.id], true, false⟩) ∨
    (∃ n, evalAlert env ja = ⟨[Event.notified ja.row.id n], false, true⟩) := by
  rcases hst : ja.stocks with _ | st
  · exact Or.inl (by simp [evalAlert, hst])
  · rcases hq : get_stock_quote (env.fetch st.symbol) st.symbol with ⟨s, m⟩ | ⟨s, mp⟩
    · exact Or.inl (by simp [evalAlert, hst, hq])
    · rcases mp with _ | p
      · exact Or.inl (by simp [evalAlert, hst, hq])
      · obtain rfl : s = st.symbol := get_stock_quote_ok_symbol hq
        by_cases hC : (ja.row.alert_type = "high" ∧ p ≥ ja.row.target_price) ∨
            (ja.row.alert_type = "low" ∧ p ≤ ja.row.target_price)
        · by_cases hP : env.persistOk ja.row.id = true
          · exact Or.inr (Or.inl ⟨send_email_alert env.cfg (env.sendOutcome ja.row.id)
              ja.row.alert_email st.symbol st.name ja.row.alert_type p ja.row.target_price,
              by rw [evalAlert_valid hst hq, if_pos hC, if_pos hP]⟩)
          · exact Or.inr (Or.inr ⟨send_email_alert env.cfg (env.sendOutcome ja.row.id)
              ja.row.alert_email st.symbol st.name ja.row.alert_type p ja.row.target_price,
              by rw [evalAlert_valid hst hq, if_pos hC, if_neg hP]⟩)
        · exact Or.inl (by rw [evalAlert_valid hst hq, if_neg hC])

/-- Every event an alert's evaluation emits carries that alert's id. -/
theorem evalAlert_event_id (env : Env) (ja : JoinedAlert) :
    ∀ e ∈ (evalAlert env ja).events,
      (∃ n, e = Event.notified ja.row.id n) ∨ e = Event.persisted ja.row.id := by
  intro e he
  rcases evalAlert_cases env ja with h | ⟨n, h⟩ | ⟨n, h⟩ <;> rw [h] at he
  · cases he
  · simp only [List.mem_cons, List.not_mem_nil, or_false] at he
    rcases he with he | he
    · exact Or.inl ⟨n, he⟩
    · exact Or.inr he
  · simp only [List.mem_singleton] at he
    exact Or.inl ⟨n, he⟩

/-- An evaluation only raises when the update for that alert fails. -/
theorem evalAlert_raised {env : Env} {ja : JoinedAlert}
    (h : (evalAlert env ja).raised = true) :
    env.persistOk ja.row.id = false := by
  cases hb : env.persistOk ja.row.id with
  | false => rfl
  | true =>
    exfalso
    rcases hst : ja.stocks with _ | st
    · simp [evalAlert, hst] at h
    · rcases hq : get_stock_quote (env.fetch st.symbol) st.symbol with ⟨s, m⟩ | ⟨s, mp⟩
      · simp [evalAlert, hst, hq] at h
      · rcases mp with _ | p
        · simp [evalAlert, hst, hq] at h
        · obtain rfl := get_stock_quote_ok_symbol hq
          rw [evalAlert_valid hst hq] at h
          by_cases hC : (ja.row.alert_type = "high" ∧ p ≥ ja.row.target_price) ∨
              (ja.row.alert_type = "low" ∧ p ≤ ja.row.target_price)
          · rw [if_pos hC, if_pos hb] at h
            simp at h
          · rw [if_neg hC] at h
            simp at h

/-- A raised evaluation never recorded its alert as persisted. -/
theorem evalAlert_not_persisted_of_raised {env : Env} {ja : JoinedAlert}
    (h : (evalAlert env ja).raised = true) :
    (evalAlert env ja).persisted = false := by
  rcases evalAlert_cases env ja with hc | ⟨n, hc⟩ | ⟨n, hc⟩
  · rw [hc]
  · rw [hc] at h
    simp at h
  · rw [hc]

/-- When no evaluation raises, the loop visits every selected alert, in
order, exactly once. -/
theorem runAlerts_map_fst {env : Env} {l : List JoinedAlert}
    (h : ∀ ja ∈ l, (evalAlert env ja).raised = false) :
    (runAlerts env l).map Prod.fst = l := by
  induction l with
  | nil => rfl
  | cons ja rest ih =>
    have hja := h ja (List.mem_cons_self _ _)
    simp [runAlerts, hja, ih (fun x hx => h x (List.mem_cons_of_mem _ hx))]

/-! ## Claims -/

/-- C1: for every rule evaluated in a sweep pass with a valid current
price (and whose update does not raise), the rule fires — Notifier
invoked and `is_triggered` persisted — iff its threshold condition holds
with the inclusive comparison for its kind (`>=` for high, `<=` for low)
and its triggered flag was false beforehand; the flag of every rule the
sweep evaluates is false beforehand, since the pass selects on
`is_triggered = False`. -/
theorem C1_fire_iff (env : Env) (db : DB) (ja : JoinedAlert) (r : EvalResult)
    (hmem : (ja, r) ∈ check_all_alerts env db)
    (st : StockInfo) (hst : ja.stocks = some st)
    (p : Rat)
    (hq : get_stock_quote (env.fetch st.symbol) st.symbol = .ok st.symbol (some p))
    (hper : env.persistOk ja.row.id = true) :
    ((∃ n, Event.notified ja.row.id n ∈ r.events) ∧
        Event.persisted ja.row.id ∈ r.events) ↔
      (((ja.row.alert_type = "high" ∧ p ≥ ja.row.target_price) ∨
        (ja.row.alert_type = "low" ∧ p ≤ ja.row.target_price)) ∧
       ja.row.is_triggered = false) := by
  obtain ⟨hr, hact⟩ := mem_runAlerts hmem
  obtain ⟨_, htrig, _⟩ := mem_activeAlerts hact
  subst hr
  rw [evalAlert_valid hst hq]
  by_cases hC : (ja.row.alert_type = "high" ∧ p ≥ ja.row.target_price) ∨
      (ja.row.alert_type = "low" ∧ p ≤ ja.row.target_price)
  · rw [if_pos hC, if_pos hper]
    simp [hC, htrig]
  · rw [if_neg hC]
    simp [hC]

/-- Witness for C1 at a concrete input where the price equals the target,
showing the inclusive comparison fires on equality. -/
theorem C1_fire_iff_witness :
    ((∃ n, Event.notified alertW.id n ∈
        (evalAlert envW (joinStocks dbW.stocks alertW)).events) ∧
      Event.persisted alertW.id ∈
        (evalAlert envW (joinStocks dbW.stocks alertW)).events) ↔
    (((alertW.alert_type = "high" ∧ (100 : Rat) ≥ alertW.target_price) ∨
      (alertW.alert_type = "low" ∧ (100 : Rat) ≤ alertW.target_price)) ∧
     alertW.is_triggered = false) :=
  C1_fire_iff envW dbW (joinStocks dbW.stocks alertW)
    (evalAlert envW (joinStocks dbW.stocks alertW)) (by decide)
    ⟨"AAPL", "Apple Inc."⟩ rfl 100 (by decide) rfl

/-- C2: the triggered state is terminal.  For any system operation, a rule
whose flag is already true receives no further notification, and no
operation moves any rule's flag other than from false to true (rows keep
their flag, except an untriggered row the sweep marks triggered). -/
theorem C2_terminal_state (op : Op) (db : DB) (a : AlertRow)
    (hmem : a ∈ db.alerts)
    (hnd : (db.alerts.map (fun x => x.id)).Nodup)
    (hfresh : opFresh op db) :
    (a.is_triggered = true → ∀ n, Event.notified a.id n ∉ (step op db).2) ∧
    (∀ a', a' ∈ (step op db).1.alerts → a'.id = a.id →
      a'.is_triggered = a.is_triggered ∨
        (a.is_triggered = false ∧ a'.is_triggered = true)) := by
  cases op with
  | sweep env =>
    constructor
    · intro htrig n hev
      simp only [step] at hev
      rw [mem_passEvents] at hev
      obtain ⟨x, hx, he⟩ := hev
      obtain ⟨ja, r⟩ := x
      obtain ⟨hr, hact⟩ := mem_runAlerts hx
      obtain ⟨hrow, hFalse, _⟩ := mem_activeAlerts hact
      subst hr
      rcases evalAlert_event_id env ja _ he with ⟨n', hn⟩ | hn
      · simp only [Event.notified.injEq] at hn
        have ha : a = ja.row := alertRow_id_inj hnd hmem hrow hn.1
        have hfa : a.is_triggered = false := by rw [ha]; exact hFalse
        rw [htrig] at hfa
        simp at hfa
      · simp at hn
    · intro a' ha' hid
      simp only [step, sweepDB, List.mem_map] at ha'
      obtain ⟨b, hb, hba⟩ := ha'
      by_cases hbid : b.id ∈ persistedIds (check_all_alerts env db)
      · rw [if_pos hbid] at hba
        have h1 : a'.is_triggered = true := by rw [← hba]
        cases htv : a.is_triggered with
        | false => exact Or.inr ⟨rfl, h1⟩
        | true => exact Or.inl h1
      · rw [if_neg hbid] at hba
        have hbb : b = a := alertRow_id_inj hnd hb hmem (by rw [hba]; exact hid)
        exact Or.inl (by rw [← hba, hbb])
  | pageLoad fetch uid =>
    refine ⟨?_, ?_⟩
    · intro _ n
      simp [step]
    · intro a' ha' hid
      simp only [step] at ha'
      exact Or.inl (by rw [alertRow_id_inj hnd ha' hmem hid])
  | addAlert fid sid email price atype uid =>
    simp only [opFresh] at hfresh
    refine ⟨?_, ?_⟩
    · intro _ n
      simp [step]
    · intro a' ha' hid
      simp only [step, addAlertDB] at ha'
      by_cases hc : email ≠ "" ∧ atype ≠ "" ∧
          db.stocks.any (fun s => s.id == sid ∧ s.user_id == uid) = true
      · rw [if_pos hc] at ha'
        simp only [List.mem_append, List.mem_singleton] at ha'
        rcases ha' with ha' | ha'
        · exact Or.inl (by rw [alertRow_id_inj hnd ha' hmem hid])
        · exfalso
          apply hfresh
          have : a'.id = fid := by rw [ha']
          rw [← this, hid]
          exact List.mem_map_of_mem _ hmem
      · rw [if_neg hc] at ha'
        exact Or.inl (by rw [alertRow_id_inj hnd ha' hmem hid])
  | deleteAlert aid uid =>
    refine ⟨?_, ?_⟩
    · intro _ n
      simp [step]
    · intro a' ha' hid
      simp only [step, deleteAlertDB] at ha'
      rw [List.mem_filter] at ha'
      exact Or.inl (by rw [alertRow_id_inj hnd ha'.1 hmem hid])
  | deleteStock sid uid =>
    refine ⟨?_, ?_⟩
    · intro _ n
      simp [step]
    · intro a' ha' hid
      simp only [step, deleteStockDB] at ha'
      exact Or.inl (by rw [alertRow_id_inj hnd ha' hmem hid])

/-- Witness for C2: a triggered rule survives a full sweep untouched and
unnotified. -/
theorem C2_terminal_state_witness :
    (alertT.is_triggered = true →
      ∀ n, Event.notified alertT.id n ∉ (step (Op.sweep envW) dbT).2) ∧
    (∀ a', a' ∈ (step (Op.sweep envW) dbT).1.alerts → a'.id = alertT.id →
      a'.is_triggered = alertT.is_triggered ∨
        (alertT.is_triggered = false ∧ a'.is_triggered = true)) :=
  C2_terminal_state (Op.sweep envW) dbT alertT (by decide) (by decide) trivial

/-- C3: when a rule fires (and the update does not raise), the pass first
invokes the Notifier and then persists `is_triggered = true` — the trace
is exactly the notification event followed by the persist event, for any
notifier outcome including a reported failure — and the stored flag ends
up true. -/
theorem C3_notify_then_persist (env : Env) (db : DB) (ja : JoinedAlert)
    (r : EvalResult) (hmem : (ja, r) ∈ check_all_alerts env db)
    (st : StockInfo) (hst : ja.stocks = some st)
    (p : Rat)
    (hq : get_stock_quote (env.fetch st.symbol) st.symbol = .ok st.symbol (some p))
    (hfire : (ja.row.alert_type = "high" ∧ p ≥ ja.row.target_price) ∨
             (ja.row.alert_type = "low" ∧ p ≤ ja.row.target_price))
    (hper : env.persistOk ja.row.id = true) :
    r.events =
      [Event.notified ja.row.id
        (send_email_alert env.cfg (env.sendOutcome ja.row.id) ja.row.alert_email
          st.symbol st.name ja.row.alert_type p ja.row.target_price),
       Event.persisted ja.row.id] ∧
    ∀ a', a' ∈ (sweepDB env db).alerts → a'.id = ja.row.id →
      a'.is_triggered = true := by
  obtain ⟨hr, _⟩ := mem_runAlerts hmem
  have hev : evalAlert env ja =
      ⟨[Event.notified ja.row.id
          (send_email_alert env.cfg (env.sendOutcome ja.row.id) ja.row.alert_email
            st.symbol st.name ja.row.alert_type p ja.row.target_price),
        Event.persisted ja.row.id], true, false⟩ := by
    rw [evalAlert_valid hst hq, if_pos hfire, if_pos hper]
  constructor
  · rw [hr, hev]
  · intro a' ha' hid
    have hpid : ja.row.id ∈ persistedIds (check_all_alerts env db) := by
      rw [mem_persistedIds]
      exact ⟨(ja, r), hmem, by rw [hr, hev], rfl⟩
    simp only [sweepDB, List.mem_map] at ha'
    obtain ⟨b, hb, hba⟩ := ha'
    by_cases hbid : b.id ∈ persistedIds (check_all_alerts env db)
    · rw [if_pos hbid] at hba
      rw [← hba]
    · exfalso
      apply hbid
      rw [if_neg hbid] at hba
      rw [hba, hid]
      exact hpid

/-- Witness for C3 at an input whose Brevo send raises `ApiException`:
the notification attempt (reported failed) still precedes the persist,
and the stored flag is still set. -/
theorem C3_notify_then_persist_witness :
    (evalAlert envF (joinStocks dbW.stocks alertW)).events =
      [Event.notified 1 (NotifyResult.failed "boom"), Event.persisted 1] ∧
    ∀ a', a' ∈ (sweepDB envF dbW).alerts → a'.id = 1 → a'.is_triggered = true :=
  C3_notify_then_persist envF dbW (joinStocks dbW.stocks alertW)
    (evalAlert envF (joinStocks dbW.stocks alertW)) (by decide)
    ⟨"AAPL", "Apple Inc."⟩ rfl 100 (by decide)
    (Or.inl ⟨rfl, by decide⟩) rfl

/-- C4: when the price observation for a rule's stock carries an error
tag, the sweep skips the rule entirely: no notification and no persist
event is emitted for it, and its stored triggered flag is unchanged after
the pass; this holds for every rule of the errored stock. -/
theorem C4_quote_error_skips (env : Env) (db : DB) (a : AlertRow)
    (hmem : a ∈ db.alerts)
    (hnd : (db.alerts.map (fun x => x.id)).Nodup)
    (st : StockInfo) (hst : (joinStocks db.stocks a).stocks = some st)
    (msg : String)
    (herr : get_stock_quote (env.fetch st.symbol) st.symbol = .err st.symbol msg) :
    (∀ n, Event.notified a.id n ∉ passEvents (check_all_alerts env db)) ∧
    Event.persisted a.id ∉ passEvents (check_all_alerts env db) ∧
    (∀ a', a' ∈ (sweepDB env db).alerts → a'.id = a.id →
      a'.is_triggered = a.is_triggered) := by
  have key : ∀ x ∈ check_all_alerts env db, x.1.row.id = a.id →
      x.2 = ⟨[], false, false⟩ := by
    rintro ⟨ja, r⟩ hx hid
    obtain ⟨hr, hact⟩ := mem_runAlerts hx
    obtain ⟨hrow, _, hje⟩ := mem_activeAlerts hact
    have hja : ja.row = a := alertRow_id_inj hnd hrow hmem hid
    have hst' : ja.stocks = some st := by
      have hstocks := congrArg JoinedAlert.stocks hje
      rw [hstocks, hja]
      exact hst
    rw [hr]
    simp [evalAlert, hst', herr]
  refine ⟨?_, ?_, ?_⟩
  · intro n hev
    rw [mem_passEvents] at hev
    obtain ⟨x, hx, he⟩ := hev
    obtain ⟨hr, _⟩ := mem_runAlerts (x := x.1) (r := x.2) (by simpa using hx)
    rcases evalAlert_event_id env x.1 _ (by rw [← hr]; exact he) with ⟨n', hn⟩ | hn
    · simp only [Event.notified.injEq] at hn
      have hx2 := key x hx hn.1.symm
      rw [hx2] at he
      simp at he
    · simp at hn
  · intro hev
    rw [mem_passEvents] at hev
    obtain ⟨x, hx, he⟩ := hev
    obtain ⟨hr, _⟩ := mem_runAlerts (x := x.1) (r := x.2) (by simpa using hx)
    rcases evalAlert_event_id env x.1 _ (by rw [← hr]; exact he) with ⟨n', hn⟩ | hn
    · simp at hn
    · simp only [Event.persisted.injEq] at hn
      have hx2 := key x hx hn.symm
      rw [hx2] at he
      simp at he
  · intro a' ha' hid
    have hnp : a.id ∉ persistedIds (check_all_alerts env db) := by
      intro hpid
      obtain ⟨x, hx, hp, hxid⟩ := mem_persistedIds.mp hpid
      have hx2 := key x hx hxid
      rw [hx2] at hp
      simp at hp
    simp only [sweepDB, List.mem_map] at ha'
    obtain ⟨b, hb, hba⟩ := ha'
    by_cases hbid : b.id ∈ persistedIds (check_all_alerts env db)
    · exfalso
      apply hnp
      have : b.id = a.id := by
        rw [if_pos hbid] at hba
        rw [← hid, ← hba]
      rw [← this]
      exact hbid
    · rw [if_neg hbid] at hba
      have hbb : b = a := alertRow_id_inj hnd hb hmem (by rw [hba]; exact hid)
      rw [← hba, hbb]

/-- Witness for C4: a transport failure on the quote fetch leaves the
stock's live rule unnotified and its flag unchanged over a full sweep. -/
theorem C4_quote_error_skips_witness :
    (∀ n, Event.notified alertW.id n ∉ passEvents (check_all_alerts envE dbW)) ∧
    Event.persisted alertW.id ∉ passEvents (check_all_alerts envE dbW) ∧
    (∀ a', a' ∈ (sweepDB envE dbW).alerts → a'.id = alertW.id →
      a'.is_triggered = alertW.is_triggered) :=
  C4_quote_error_skips envE dbW alertW (by decide) (by decide)
    ⟨"AAPL", "Apple Inc."⟩ rfl "Failed to fetch quote" rfl

/-- C5 counterexample: in a pass over two live sibling rules, a
persistence failure on the first rule (the un-guarded supabase update
raising) leaves the second sibling unevaluated — it is selected for the
pass but absent from the rules the loop reached — refuting that a
per-rule failure never aborts the evaluation of sibling rules. -/
theorem C5_persistence_abort_counterexample :
    joinStocks dbB.stocks alertB ∈ activeAlerts dbB ∧
    joinStocks dbB.stocks alertB ∉ (check_all_alerts envP dbB).map Prod.fst ∧
    (check_all_alerts envP dbB).map (fun x => x.2.raised) = [true] := by
  refine ⟨?_, ?_, ?_⟩ <;> decide

/-- C5 amended: failures the code catches per rule (quote transport
errors, invalid quotes, notifier failures, missing joins) do not abort
sibling evaluation — when no update raises, every selected rule is
evaluated exactly once, whatever the fetch and send oracles do — but a
persistence failure is an unhandled exception: the failed rule itself
stays untriggered (it may re-fire next pass), and (per the
counterexample) the rules after it in the pass are abandoned. -/
theorem C5_failure_isolation_amended :
    (∀ env db, (∀ a ∈ db.alerts, env.persistOk a.id = true) →
      (check_all_alerts env db).map Prod.fst = activeAlerts db) ∧
    (∀ env db, (db.alerts.map (fun x => x.id)).Nodup →
      ∀ ja r, (ja, r) ∈ check_all_alerts env db → r.raised = true →
        ∀ a', a' ∈ (sweepDB env db).alerts → a'.id = ja.row.id →
          a'.is_triggered = false) := by
  constructor
  · intro env db hok
    apply runAlerts_map_fst
    intro ja hja
    obtain ⟨hrow, _, _⟩ := mem_activeAlerts hja
    cases hb : (evalAlert env ja).raised with
    | false => rfl
    | true =>
      have := evalAlert_raised hb
      rw [hok ja.row hrow] at this
      simp at this
  · intro env db hnd ja r hmem hraised
    intro a' ha' hid
    obtain ⟨hr, hact⟩ := mem_runAlerts hmem
    obtain ⟨hrow, hFalse, hje⟩ := mem_activeAlerts hact
    have hnp : ja.row.id ∉ persistedIds (check_all_alerts env db) := by
      intro hpid
      obtain ⟨x, hx, hp, hxid⟩ := mem_persistedIds.mp hpid
      obtain ⟨hxr, hxact⟩ := mem_runAlerts (x := x.1) (r := x.2) (by simpa using hx)
      obtain ⟨hxrow, _, hxje⟩ := mem_activeAlerts hxact
      have hrows : x.1.row = ja.row := alertRow_id_inj hnd hxrow hrow hxid
      have hxja : x.1 = ja := by rw [hxje, hrows, ← hje]
      rw [hxja] at hxr
      rw [hxr] at hp
      rw [hr] at hraised
      rw [evalAlert_not_persisted_of_raised hraised] at hp
      simp at hp
    simp only [sweepDB, List.mem_map] at ha'
    obtain ⟨b, hb, hba⟩ := ha'
    by_cases hbid : b.id ∈ persistedIds (check_all_alerts env db)
    · exfalso
      apply hnp
      have : b.id = ja.row.id := by
        rw [if_pos hbid] at hba
        rw [← hid, ← hba]
      rw [← this]
      exact hbid
    · rw [if_neg hbid] at hba
      have hbb : b = ja.row := alertRow_id_inj hnd hb hrow (by rw [hba]; exact hid)
      rw [← hba, hbb]
      exact hFalse

/-- Witness for C5's amended statement: with all updates succeeding both
siblings are evaluated even though one environment reports notifier
failures; and in the aborting run the failed rule's flag stays false. -/
theorem C5_failure_isolation_amended_witness :
    (check_all_alerts envF dbB).map Prod.fst = activeAlerts dbB ∧
    (∀ a', a' ∈ (sweepDB envP dbB).alerts →
      a'.id = (joinStocks dbB.stocks alertW).row.id → a'.is_triggered = false) :=
  ⟨C5_failure_isolation_amended.1 envF dbB (by decide),
   C5_failure_isolation_amended.2 envP dbB (by decide)
     (joinStocks dbB.stocks alertW) (evalAlert envP (joinStocks dbB.stocks alertW))
     (by decide) (by decide)⟩

/-- C6 counterexample: same stored state `dbW` and same live price oracle
(`envW.fetch = fetchW`, current price 100 against an untriggered high
alert with target 100), yet the interactive page load emits no
notification and leaves the store unchanged while the sweep notifies and
flips the flag — the two entry paths do not produce identical outcomes,
because `home` never runs the evaluation routine. -/
theorem C6_page_load_counterexample :
    envW.fetch = fetchW ∧
    (step (Op.pageLoad fetchW 7) dbW).2 = [] ∧
    passEvents (check_all_alerts envW dbW) =
      [Event.notified 1 (NotifyResult.sent "mid"), Event.persisted 1] ∧
    (step (Op.pageLoad fetchW 7) dbW).1 = dbW ∧
    (sweepDB envW dbW).alerts ≠ dbW.alerts := by
  refine ⟨rfl, rfl, ?_, rfl, ?_⟩ <;> decide

/-- C6 amended: only the scheduled sweep runs the evaluation routine, and
it restricts itself to rules with `triggered = false`; the interactive
page load fetches quotes for the viewing user's stocks and attaches that
user's alerts for display, but performs no firing and no persistence. -/
theorem C6_entry_paths_amended (fetch : String → FetchOutcome) (userId : Nat)
    (db : DB) (env : Env) :
    (step (Op.pageLoad fetch userId) db).1 = db ∧
    (step (Op.pageLoad fetch userId) db).2 = [] ∧
    (∀ v, v ∈ home fetch userId db →
      v.stock.user_id = userId ∧
      v.quote = get_stock_quote_app (fetch v.stock.symbol) v.stock.symbol ∧
      ∀ al, al ∈ v.alerts → al.user_id = userId ∧ al.stock_id = v.stock.id) ∧
    (∀ ja r, (ja, r) ∈ check_all_alerts env db → ja.row.is_triggered = false) := by
  refine ⟨rfl, rfl, ?_, ?_⟩
  · intro v hv
    simp only [home, List.mem_map] at hv
    obtain ⟨s, hs, rfl⟩ := hv
    rw [List.mem_filter] at hs
    refine ⟨by simpa using hs.2, rfl, ?_⟩
    intro al hal
    rw [List.mem_filter] at hal
    obtain ⟨hal1, hal2⟩ := hal
    rw [List.mem_filter] at hal1
    exact ⟨by simpa using hal1.2, by simpa using hal2⟩
  · intro ja r hmem
    exact (mem_activeAlerts (mem_runAlerts hmem).2).2.1

/-- Witness for C6's amended statement at the concrete fixture. -/
theorem C6_entry_paths_amended_witness :
    (joinStocks dbW.stocks alertW).row.is_triggered = false :=
  (C6_entry_paths_amended fetchW 7 dbW envW).2.2.2
    (joinStocks dbW.stocks alertW) (evalAlert envW (joinStocks dbW.stocks alertW))
    (by decide)

/-- C7: in both variants of the quote source, a response whose current
price and day-high are both zero is classified as a tagged error, never
returned as a valid record, and a transport failure is likewise returned
as a tagged error instead of escaping as an exception. -/
theorem C7_zero_quote_classified_error (d dp o l : Option Rat) (sym : String) :
    get_stock_quote (.response (some 0) d dp o (some 0) l) sym =
      .err sym "No valid price data found for ticker." ∧
    get_stock_quote_app (.response (some 0) d dp o (some 0) l) sym =
      .err sym "No valid price data found for ticker." ∧
    get_stock_quote .transportError sym = .err sym "Failed to fetch quote" ∧
    get_stock_quote_app .transportError sym = .err sym "Failed to fetch quote" :=
  ⟨by simp [get_stock_quote], by simp [get_stock_quote_app], rfl, rfl⟩

/-- C8: the Notifier always returns normally.  It is a no-op-with-log
exactly when the Brevo key or sender is missing/empty or the recipient is
empty; otherwise a delivery `ApiException` is caught and reported as a
failed result and a successful send is reported as sent — in every case a
normal return, never an exception into the caller. -/
theorem C8_notifier_contract (cfg : BrevoConfig) (outcome : SendOutcome)
    (target_email symbol name alert_type : String)
    (current_price target_price : Rat) :
    (send_email_alert cfg outcome target_email symbol name alert_type
        current_price target_price = .skipped ↔
      (truthy cfg.api_key = false ∨ truthy cfg.sender = false ∨
        target_email = "")) ∧
    (∀ msg, outcome = .apiException msg →
      truthy cfg.api_key = true → truthy cfg.sender = true → target_email ≠ "" →
      send_email_alert cfg outcome target_email symbol name alert_type
        current_price target_price = .failed msg) ∧
    (∀ mid, outcome = .success mid →
      truthy cfg.api_key = true → truthy cfg.sender = true → target_email ≠ "" →
      send_email_alert cfg outcome target_email symbol name alert_type
        current_price target_price = .sent mid) := by
  by_cases hc : ¬ (truthy cfg.api_key = true) ∨ ¬ (truthy cfg.sender = true) ∨
      target_email = ""
  · refine ⟨?_, ?_, ?_⟩
    · simp only [send_email_alert, if_pos hc, true_iff]
      rcases hc with h | h | h
      · exact Or.inl (by simpa using h)
      · exact Or.inr (Or.inl (by simpa using h))
      · exact Or.inr (Or.inr h)
    · intro msg _ h1 h2 h3
      rcases hc with h | h | h
      · exact absurd h1 h
      · exact absurd h2 h
      · exact absurd h h3
    · intro mid _ h1 h2 h3
      rcases hc with h | h | h
      · exact absurd h1 h
      · exact absurd h2 h
      · exact absurd h h3
  · push_neg at hc
    obtain ⟨h1, h2, h3⟩ := hc
    have hno : ¬ (¬ (truthy cfg.api_key = true) ∨ ¬ (truthy cfg.sender = true) ∨
        target_email = "") := by
      push_neg
      exact ⟨h1, h2, h3⟩
    refine ⟨?_, ?_, ?_⟩
    · simp only [send_email_alert, if_neg hno]
      cases outcome with
      | success mid =>
        constructor
        · intro h
          simp at h
        · rintro (h | h | h)
          · rw [h1] at h
            simp at h
          · rw [h2] at h
            simp at h
          · exact absurd h h3
      | apiException msg =>
        constructor
        · intro h
          simp at h
        · rintro (h | h | h)
          · rw [h1] at h
            simp at h
          · rw [h2] at h
            simp at h
          · exact absurd h h3
    · intro msg hmsg _ _ _
      subst hmsg
      simp only [send_email_alert, if_neg hno]
    · intro mid hmid _ _ _
      subst hmid
      simp only [send_email_alert, if_neg hno]

/-- Witness for C8: with credentials present, a Brevo `ApiException` comes
back as a normally returned failure result. -/
theorem C8_notifier_contract_witness :
    send_email_alert ⟨some "k", some "s"⟩ (.apiException "oops")
      "user@example.com" "AAPL" "Apple Inc." "high" 105 100 =
      .failed "oops" :=
  (C8_notifier_contract ⟨some "k", some "s"⟩ (.apiException "oops")
      "user@example.com" "AAPL" "Apple Inc." "high" 105 100).2.1
    "oops" rfl rfl rfl (by decide)

/-- C9: with `CRON_SECRET` unset and no `secret` query parameter, the
endpoint's equality check compares `None` with `None` and passes, so the
sweep runs; and whenever the sweep returns normally the endpoint answers
the 200 success response. -/
theorem C9_missing_secret_runs_sweep (env : Env) (db : DB) :
    (run_alert_check none none env db).1 =
      some (check_all_alerts env db, sweepDB env db) ∧
    ((check_all_alerts env db).any (fun x => x.2.raised) = false →
      (run_alert_check none none env db).2 = 200) := by
  constructor
  · by_cases h : (check_all_alerts env db).any (fun x => x.2.raised) = true
    · simp [run_alert_check, h]
    · simp only [Bool.not_eq_true] at h
      simp [run_alert_check, h]
  · intro h
    simp [run_alert_check, h]

/-- Witness for C9 at the concrete fixture: the unguarded sweep runs and
the endpoint returns 200. -/
theorem C9_missing_secret_runs_sweep_witness :
    (run_alert_check none none envW dbW).2 = 200 :=
  (C9_missing_secret_runs_sweep envW dbW).2 (by decide)

/-- C10: a rule whose joined stock record is absent, or whose quote
carries no error tag but a `None` current price, is skipped by the sweep
loop without notifying, persisting, or raising — the threshold comparison
is never applied to a missing price. -/
theorem C10_missing_data_skipped (env : Env) (ja : JoinedAlert) :
    (ja.stocks = none → evalAlert env ja = ⟨[], false, false⟩) ∧
    (∀ st, ja.stocks = some st →
      get_stock_quote (env.fetch st.symbol) st.symbol = .ok st.symbol none →
      evalAlert env ja = ⟨[], false, false⟩) := by
  constructor
  · intro h
    simp [evalAlert, h]
  · intro st h hq
    simp [evalAlert, h, hq]

/-- Witness for C10: a dangling `stock_id` and a quote response lacking
the `c` field are both skipped. -/
theorem C10_missing_data_skipped_witness :
    evalAlert envW ⟨alertN, none⟩ = ⟨[], false, false⟩ ∧
    evalAlert envNone (joinStocks dbW.stocks alertW) = ⟨[], false, false⟩ :=
  ⟨(C10_missing_data_skipped envW ⟨alertN, none⟩).1 rfl,
   (C10_missing_data_skipped envNone (joinStocks dbW.stocks alertW)).2
     ⟨"AAPL", "Apple Inc."⟩ rfl (by decide)⟩
